import Mathlib

/-!
Shallow embedding, in Lean 4, of the core of the `book-ai` ebook-reader
backend: the TTS text cleaning and synthesis orchestration
(`backend/app/services/tts_service.py`), the PDF page extraction
(`backend/app/services/book_service.py`), the route-level validation and
exception handling (`backend/app/routes/tts.py`, `routes/books.py`,
`routes/highlights.py`) and the highlight listing queries.

Python strings are modelled as `List Char` (sequences of code points), the
database tables as Lean lists of row structures, and the HTTP layer as
explicit result values.  Python exceptions are modelled with `Except`
together with an explicit embedding of each route's `except` clause chain.
-/

set_option maxRecDepth 20000

namespace BookAI

/-! ## Python string primitives -/

/-- Characters matched by Python's `\s` regex class and by `str.strip()`
(ASCII range, which is all the source manipulates). -/
def pyIsSpace (c : Char) : Bool :=
  c == ' ' || c == '\t' || c == '\n' || c == '\r' || c == '\x0b' || c == '\x0c'

/-- Python `str.strip()`: drop whitespace from both ends. -/
def pyStrip (l : List Char) : List Char :=
  ((l.dropWhile pyIsSpace).reverse.dropWhile pyIsSpace).reverse

/-- Helper for `re.sub(r"\s+", " ", text)`: collapse each maximal whitespace
run to a single space.  The flag records whether the previous character was
part of a whitespace run. -/
def squeezeWsAux : List Char → Bool → List Char
  | [], _ => []
  | c :: rest, prevSpace =>
    if pyIsSpace c then
      if prevSpace then squeezeWsAux rest true
      else ' ' :: squeezeWsAux rest true
    else c :: squeezeWsAux rest false

/-- Python `re.sub(r"\s+", " ", text)`. -/
def subWsRuns (l : List Char) : List Char :=
  squeezeWsAux l false

/-- Python `text.replace(a, b)` for single-character patterns. -/
def replaceChar (a b : Char) (l : List Char) : List Char :=
  l.map fun c => if c = a then b else c

/-- Python `text.split('.')`. -/
def splitOnDot : List Char → List (List Char)
  | [] => [[]]
  | c :: rest =>
    if c = '.' then [] :: splitOnDot rest
    else
      match splitOnDot rest with
      | [] => [[c]]
      | p :: ps => (c :: p) :: ps

/-- Helper for Python `str.split()` (split on whitespace runs, dropping
empty words); `cur` is the reversed word being accumulated. -/
def pySplitAux : List Char → List Char → List (List Char)
  | [], cur => if cur = [] then [] else [cur.reverse]
  | c :: rest, cur =>
    if pyIsSpace c then
      if cur = [] then pySplitAux rest []
      else cur.reverse :: pySplitAux rest []
    else pySplitAux rest (c :: cur)

/-- Python `str.split()` with no argument. -/
def pySplit (l : List Char) : List (List Char) :=
  pySplitAux l []

/-! ## TTSService._clean_text (tts_service.py lines 180-202) -/

/-- The whitespace normalization at the top of `_clean_text`:
`re.sub(r"\s+", " ", text)` followed by `text.replace("\n", " ")` and
`text.replace("\t", " ")`. -/
def normalizeWs (l : List Char) : List Char :=
  replaceChar '\t' ' ' (replaceChar '\n' ' ' (subWsRuns l))

/-- The sentence-accumulation loop of `_clean_text`: starting from `result`,
append each sentence (plus the `"."` removed by the split) while
`len(result + sentence) < 500`; `break` on the first sentence that does not
fit, returning the accumulated `result`. -/
def accumSentences : List (List Char) → List Char → List Char
  | [], result => result
  | s :: rest, result =>
    if result.length + s.length < 500 then accumSentences rest (result ++ s ++ ['.'])
    else result

/-- `TTSService._clean_text`: normalize whitespace; if the text is longer
than 500 characters, keep whole `'.'`-separated sentences while they fit
(`text = result.strip() or text[:max_length]`, i.e. fall back to the hard
cut `text[:500]` when the accumulated result strips to empty), and return
the final `text.strip()`. -/
def cleanText (text : List Char) : List Char :=
  if 500 < (normalizeWs text).length then
    pyStrip (if pyStrip (accumSentences (splitOnDot (normalizeWs text)) []) = []
             then (normalizeWs text).take 500
             else pyStrip (accumSentences (splitOnDot (normalizeWs text)) []))
  else pyStrip (normalizeWs text)

/-! ## Small facts about the string primitives -/

theorem dropWhile_length_le (p : Char → Bool) (l : List Char) :
    (l.dropWhile p).length ≤ l.length := by
  induction l with
  | nil => simp [List.dropWhile]
  | cons c rest ih =>
    by_cases h : p c
    · simp only [List.dropWhile, h]
      exact Nat.le_succ_of_le ih
    · simp only [List.dropWhile, h]
      simp

theorem pyStrip_length_le (l : List Char) : (pyStrip l).length ≤ l.length := by
  unfold pyStrip
  rw [List.length_reverse]
  calc ((l.dropWhile pyIsSpace).reverse.dropWhile pyIsSpace).length
      ≤ (l.dropWhile pyIsSpace).reverse.length := dropWhile_length_le _ _
    _ = (l.dropWhile pyIsSpace).length := List.length_reverse _
    _ ≤ l.length := dropWhile_length_le _ _

theorem accumSentences_length_le (sents : List (List Char)) (result : List Char)
    (h : result.length ≤ 500) : (accumSentences sents result).length ≤ 500 := by
  induction sents generalizing result with
  | nil => simpa [accumSentences] using h
  | cons s rest ih =>
    by_cases hfit : result.length + s.length < 500
    · simp only [accumSentences, if_pos hfit]
      apply ih
      simp only [List.length_append, List.length_cons, List.length_nil]
      omega
    · simpa [accumSentences, if_neg hfit] using h

theorem splitOnDot_ne_nil (l : List Char) : splitOnDot l ≠ [] := by
  cases l with
  | nil => simp [splitOnDot]
  | cons c rest =>
    by_cases h : c = '.'
    · simp [splitOnDot, h]
    · simp only [splitOnDot, if_neg h]
      cases splitOnDot rest <;> simp

/-! ## Claims C2 and C8: the text chunker (`_clean_text`) -/

/-- C2, counterexample.  The claim states that concatenating all chunks the
text chunker produces reconstructs the whitespace-normalized source with no
part of the input dropped.  The chunker (`_clean_text`) emits the single
chunk `cleanText text`; on the 501-character input consisting of 499 `a`s,
a period and a `b`, the emitted content is not the normalized source: the
final sentence `b` is dropped by the length cut. -/
theorem c2_counterexample :
    cleanText (List.replicate 499 'a' ++ ['.', 'b']) ≠
      pyStrip (normalizeWs (List.replicate 499 'a' ++ ['.', 'b'])) := by
  decide

/-- C2, amended.  Whenever the whitespace-normalized source text has at most
500 characters, the chunker's output reconstructs the normalized source
exactly (up to the surrounding-whitespace strip the code always applies);
beyond 500 characters, input past the sentence cut is dropped. -/
theorem c2_chunk_reconstructs_short_text (text : List Char)
    (h : (normalizeWs text).length ≤ 500) :
    cleanText text = pyStrip (normalizeWs text) := by
  simp only [cleanText]
  rw [if_neg (by omega)]

/-- C2, witness for `c2_chunk_reconstructs_short_text` at a concrete
input. -/
theorem c2_witness :
    (normalizeWs ("Hello there.  General text".toList)).length ≤ 500 ∧
    cleanText ("Hello there.  General text".toList) =
      pyStrip (normalizeWs ("Hello there.  General text".toList)) :=
  ⟨by decide, c2_chunk_reconstructs_short_text _ (by decide)⟩

/-- C8: every chunk the chunker emits has length at most 500, and when the
first `'.'`-separated sentence of the normalized text alone exceeds 500
characters the chunk is the hard cut of the normalized text at exactly
500 characters (followed by the strip the code applies to every return
value). -/
theorem c8_chunk_length_bound (text : List Char) :
    (cleanText text).length ≤ 500 ∧
    (500 < (normalizeWs text).length →
      500 < ((splitOnDot (normalizeWs text)).headI).length →
      cleanText text = pyStrip ((normalizeWs text).take 500)) := by
  constructor
  · simp only [cleanText]
    by_cases hlong : 500 < (normalizeWs text).length
    · rw [if_pos hlong]
      by_cases hr : pyStrip (accumSentences (splitOnDot (normalizeWs text)) []) = []
      · rw [if_pos hr]
        calc (pyStrip ((normalizeWs text).take 500)).length
            ≤ ((normalizeWs text).take 500).length := pyStrip_length_le _
          _ ≤ 500 := by simp
      · rw [if_neg hr]
        calc (pyStrip (pyStrip (accumSentences (splitOnDot (normalizeWs text)) []))).length
            ≤ (pyStrip (accumSentences (splitOnDot (normalizeWs text)) [])).length :=
              pyStrip_length_le _
          _ ≤ (accumSentences (splitOnDot (normalizeWs text)) []).length := pyStrip_length_le _
          _ ≤ 500 := accumSentences_length_le _ _ (by simp)
    · rw [if_neg hlong]
      calc (pyStrip (normalizeWs text)).length
          ≤ (normalizeWs text).length := pyStrip_length_le _
        _ ≤ 500 := by omega
  · intro hlong hhead
    obtain ⟨s1, rest, heq⟩ := List.exists_cons_of_ne_nil (splitOnDot_ne_nil (normalizeWs text))
    rw [heq] at hhead
    simp only [List.headI] at hhead
    have haccum : accumSentences (splitOnDot (normalizeWs text)) [] = [] := by
      rw [heq]
      simp only [accumSentences, List.length_nil, Nat.zero_add]
      rw [if_neg (by omega)]
    simp only [cleanText]
    rw [if_pos hlong, haccum]
    simp [pyStrip]

/-- C8, witness for `c8_chunk_length_bound` at a concrete input: a single
501-character sentence is hard-truncated at 500 characters. -/
theorem c8_witness :
    (cleanText (List.replicate 501 'a')).length ≤ 500 ∧
    cleanText (List.replicate 501 'a') =
      pyStrip ((normalizeWs (List.replicate 501 'a')).take 500) :=
  ⟨(c8_chunk_length_bound _).1,
   (c8_chunk_length_bound (List.replicate 501 'a')).2 (by decide) (by decide)⟩

/-! ## BookService._process_pdf (book_service.py lines 126-136) and the
page branch of get_book_content (books.py lines 185-207) -/

/-- One entry of the `pages` metadata list built by `_process_pdf`. -/
structure PdfPage where
  pageNumber : Nat
  content : List Char
  wordCount : Nat
deriving DecidableEq

/-- Result of a route call: a payload or an `HTTPException` status code. -/
inductive HttpResult (α : Type) where
  | ok : α → HttpResult α
  | httpError : Nat → HttpResult α
deriving DecidableEq

/-- The page-extraction loop of `_process_pdf`:
`for page_num, page in enumerate(pdf_reader.pages)` keeps each page whose
extracted text is non-blank, recording `page_number = page_num + 1`,
the raw text and `len(text.split())`. -/
def processPdfAux : List (List Char) → Nat → List PdfPage
  | [], _ => []
  | t :: rest, pageNum =>
    if pyStrip t ≠ [] then
      { pageNumber := pageNum + 1, content := t, wordCount := (pySplit t).length }
        :: processPdfAux rest (pageNum + 1)
    else processPdfAux rest (pageNum + 1)

/-- The `pages` list `_process_pdf` stores, given the extracted text of each
page of the container in document order. -/
def processPdfPages (pageTexts : List (List Char)) : List PdfPage :=
  processPdfAux pageTexts 0

/-- The `page` branch of `get_book_content`: 404 when
`page < 1 or page > len(pages)`, else `pages[page - 1]`. -/
def getBookContentPage (pages : List PdfPage) (page : Nat) : HttpResult PdfPage :=
  if page < 1 then .httpError 404
  else
    match pages.get? (page - 1) with
    | none => .httpError 404
    | some p => .ok p

/-- Every retained page records the 1-based position, in the original
container, of the text it was extracted from, and that position is past the
starting counter. -/
theorem processPdfAux_content (pageTexts : List (List Char)) (n : Nat) :
    ∀ p ∈ processPdfAux pageTexts n,
      pageTexts.get? (p.pageNumber - 1 - n) = some p.content ∧
      pyStrip p.content ≠ [] ∧ n < p.pageNumber := by
  induction pageTexts generalizing n with
  | nil => simp [processPdfAux]
  | cons t rest ih =>
    intro p hp
    by_cases hblank : pyStrip t ≠ []
    · simp only [processPdfAux, if_pos hblank, List.mem_cons] at hp
      rcases hp with rfl | hp
      · simp [hblank]
      · obtain ⟨hget, hne, hlt⟩ := ih (n + 1) p hp
        refine ⟨?_, hne, by omega⟩
        have harith : p.pageNumber - 1 - n = (p.pageNumber - 1 - (n + 1)) + 1 := by omega
        rw [harith]
        simpa using hget
    · simp only [processPdfAux, if_neg hblank] at hp
      obtain ⟨hget, hne, hlt⟩ := ih (n + 1) p hp
      refine ⟨?_, hne, by omega⟩
      have harith : p.pageNumber - 1 - n = (p.pageNumber - 1 - (n + 1)) + 1 := by omega
      rw [harith]
      simpa using hget

/-- The recorded page numbers are strictly increasing. -/
theorem processPdfAux_pairwise (pageTexts : List (List Char)) (n : Nat) :
    (processPdfAux pageTexts n).Pairwise (fun p q => p.pageNumber < q.pageNumber) := by
  induction pageTexts generalizing n with
  | nil => simp [processPdfAux]
  | cons t rest ih =>
    by_cases hblank : pyStrip t ≠ []
    · simp only [processPdfAux, if_pos hblank]
      refine List.Pairwise.cons ?_ (ih (n + 1))
      intro q hq
      have := (processPdfAux_content rest (n + 1) q hq).2.2
      simpa using this
    · simpa only [processPdfAux, if_neg hblank] using ih (n + 1)

/-- C4, counterexample.  The claim states the retained pages are numbered
contiguously `1..N` (the i-th retained page has `pageNumber = i`) and that
`getContent(id, page = k)` returns the page whose `pageNumber` is `k`.  On
a PDF whose first page is blank and whose second page reads `hi`, the only
retained page has `pageNumber = 2`, and requesting `page = 2` yields 404
rather than that page. -/
theorem c4_counterexample :
    (¬ ∀ i : Fin (processPdfPages [[], ['h', 'i']]).length,
        ((processPdfPages [[], ['h', 'i']]).get i).pageNumber = (i : Nat) + 1) ∧
    getBookContentPage (processPdfPages [[], ['h', 'i']]) 2 = .httpError 404 := by
  decide

/-- C4, amended.  Retained pages keep the 1-based page number of their
position in the original container (so numbers are strictly increasing but
can have gaps where blank pages were discarded), and `getContent(id, page=k)`
returns the k-th *retained* page — positional indexing, whatever that page's
recorded `pageNumber` is. -/
theorem c4_pdf_page_numbering (pageTexts : List (List Char)) :
    (∀ p ∈ processPdfPages pageTexts,
      pageTexts.get? (p.pageNumber - 1) = some p.content ∧ pyStrip p.content ≠ []) ∧
    (processPdfPages pageTexts).Pairwise (fun p q => p.pageNumber < q.pageNumber) ∧
    (∀ k p, getBookContentPage (processPdfPages pageTexts) k = .ok p →
      1 ≤ k ∧ (processPdfPages pageTexts).get? (k - 1) = some p) := by
  refine ⟨?_, processPdfAux_pairwise pageTexts 0, ?_⟩
  · intro p hp
    have h := processPdfAux_content pageTexts 0 p hp
    exact ⟨by simpa using h.1, h.2.1⟩
  · intro k p hk
    simp only [getBookContentPage] at hk
    by_cases h1 : k < 1
    · rw [if_pos h1] at hk
      cases hk
    · rw [if_neg h1] at hk
      refine ⟨by omega, ?_⟩
      cases hget : (processPdfPages pageTexts).get? (k - 1) with
      | none => rw [hget] at hk; cases hk
      | some q =>
        rw [hget] at hk
        have hqp : q = p := by
          simp only [] at hk
          injection hk
        rw [hqp]

/-- C4, witness for `c4_pdf_page_numbering` at a concrete input with a
dropped blank page. -/
theorem c4_witness :
    ([['a'], [], ['b']].get?
        ((⟨3, ['b'], 1⟩ : PdfPage).pageNumber - 1) = some ['b'] ∧
      pyStrip (⟨3, ['b'], 1⟩ : PdfPage).content ≠ []) ∧
    1 ≤ 2 ∧ (processPdfPages [['a'], [], ['b']]).get? (2 - 1) = some ⟨3, ['b'], 1⟩ :=
  ⟨(c4_pdf_page_numbering [['a'], [], ['b']]).1 ⟨3, ['b'], 1⟩ (by decide),
   (c4_pdf_page_numbering [['a'], [], ['b']]).2.2 2 ⟨3, ['b'], 1⟩ (by decide)⟩

/-! ## Python exception model for the route handlers -/

/-- The exceptions relevant to the route bodies: `ValueError` (raised by
`uuid.UUID` on a malformed id), `AttributeError` (raised by
`database.func.now()` in `update_reading_position`, since the
`databases.Database` instance has no `func` attribute — that name is a
module-level import of `sqlalchemy.sql.func` inside `database.py` only)
and FastAPI's `HTTPException` carrying a status code. -/
inductive PyExc where
  | valueError : PyExc
  | attributeError : PyExc
  | httpException : Nat → PyExc
deriving DecidableEq

/-! ## books table rows and update_reading_position (books.py lines 217-237) -/

/-- A row of the `books` table, restricted to the columns the verified
routes read or write.  `currentPosition` is the opaque JSONB position blob,
`lastRead` the `last_read` timestamp. -/
structure BookRow where
  id : Nat
  title : List Char
  fileType : List Char
  currentPosition : Option (List Char)
  lastRead : Option Nat
deriving DecidableEq

/-- The `try` body of `update_reading_position`.  Building the query
evaluates `uuid.UUID(book_id)` inside `.where(...)` first, raising
`ValueError` on a malformed id (modelled as `parsedId = none`); for every
well-formed id the subsequent `.values(...., last_read=database.func.now())`
raises `AttributeError` (`databases.Database` has no `func` attribute), so
the body never reaches `database.execute`: the UPDATE is never executed,
the table is never modified, and the zero-row `HTTPException(404)` and the
success return are dead code.  The unused `pos`/`now` arguments are the
request position and the clock the dead UPDATE would have written. -/
def updatePositionBody (parsedId : Option Nat) (_pos : List Char) (_now : Nat)
    (db : List BookRow) : Except PyExc Unit × List BookRow :=
  match parsedId with
  | none => (.error .valueError, db)
  | some _ => (.error .attributeError, db)

/-- The `except` chain of `update_reading_position`: `except ValueError`
maps to 400 and the blanket `except Exception` maps to 500.  The
`AttributeError` the body raises falls into the blanket clause; note this
route also has no `except HTTPException: raise` clause, so even an
`HTTPException` raised in the body would become a 500. -/
def updatePositionExceptChain : Except PyExc Unit → HttpResult Unit
  | .ok _ => .ok ()
  | .error .valueError => .httpError 400
  | .error _ => .httpError 500

/-- The whole `update_reading_position` route: response and resulting
`books` table. -/
def updateReadingPosition (parsedId : Option Nat) (pos : List Char) (now : Nat)
    (db : List BookRow) : HttpResult Unit × List BookRow :=
  ((updatePositionExceptChain (updatePositionBody parsedId pos now db).1),
   (updatePositionBody parsedId pos now db).2)

/-- C3: the route can satisfy neither half of the claim.  For every
well-formed id — whether or not a book with that id is stored — the
`AttributeError` from `database.func.now()` aborts query construction, the
blanket `except Exception` answers 500, and the table is left untouched:
a known book is never updated (the claim requires success with
`currentPosition` overwritten and `lastRead` touched) and an unknown book
never yields the claimed 404.  A malformed id still answers 400 via
`except ValueError`. -/
theorem c3_update_position_always_500 (bid : Nat) (pos : List Char) (now : Nat)
    (db : List BookRow) :
    updateReadingPosition (some bid) pos now db = (.httpError 500, db) ∧
    (.httpError 500 : HttpResult Unit) ≠ .httpError 404 ∧
    (.httpError 500 : HttpResult Unit) ≠ .ok () ∧
    updateReadingPosition none pos now db = (.httpError 400, db) := by
  exact ⟨rfl, by simp, by simp, rfl⟩

/-! ## upload_book validation (books.py lines 31-51) -/

/-- Python `filename.lower().split('.')[-1]`. -/
def uploadFileExt (filename : List Char) : List Char :=
  (splitOnDot (filename.map Char.toLower)).getLastD []

/-- The validation at the top of `upload_book`: 400 when the filename is
falsy, when `filename.lower().split('.')[-1]` is not `epub`/`pdf`, when the
content is empty, or when it exceeds `100 * 1024 * 1024` bytes; otherwise
processing proceeds (modelled as `.ok ()`). -/
def uploadBookValidation (filename : List Char) (contentLen : Nat) : HttpResult Unit :=
  if filename = [] then .httpError 400
  else if uploadFileExt filename ∉ ["epub".toList, "pdf".toList] then .httpError 400
  else if contentLen = 0 then .httpError 400
  else if 100 * 1024 * 1024 < contentLen then .httpError 400
  else .ok ()

/-- Modelled from the claim's words (for comparison with
`uploadBookValidation`): the upload is rejected exactly when the filename
has no extension, the extension is outside `{epub, pdf}`, the content is
empty, or the content exceeds 100 MiB.  A filename with no `'.'` has no
extension. -/
def claimedUploadReject (filename : List Char) (contentLen : Nat) : Prop :=
  '.' ∉ filename ∨
  uploadFileExt filename ∉ ["epub".toList, "pdf".toList] ∨
  contentLen = 0 ∨ 100 * 1024 * 1024 < contentLen

/-- C6, counterexample.  The one-word filename `epub` contains no `'.'` and
therefore has no extension, so the claim requires rejection; the code
accepts it, because `"epub".split('.')[-1] == "epub"` passes the extension
check. -/
theorem c6_counterexample :
    claimedUploadReject ("epub".toList) 1 ∧
      uploadBookValidation ("epub".toList) 1 = .ok () := by
  constructor
  · exact Or.inl (by decide)
  · decide

/-- C6, amended.  The upload is rejected — always with HTTP 400 — exactly
when the filename is empty, or the last `'.'`-separated component of the
lowercased filename is not `epub`/`pdf` (so a dotless filename is accepted
precisely when it is itself `epub` or `pdf`), or the content is empty, or
the content exceeds 100 MiB; there is no other outcome than acceptance. -/
theorem c6_upload_validation (filename : List Char) (contentLen : Nat) :
    (uploadBookValidation filename contentLen = .httpError 400 ↔
      (filename = [] ∨ uploadFileExt filename ∉ ["epub".toList, "pdf".toList] ∨
        contentLen = 0 ∨ 100 * 1024 * 1024 < contentLen)) ∧
    (uploadBookValidation filename contentLen = .httpError 400 ∨
      uploadBookValidation filename contentLen = .ok ()) := by
  constructor
  · unfold uploadBookValidation
    split_ifs with h1 h2 h3 h4 <;> simp_all
  · unfold uploadBookValidation
    split_ifs <;> simp

/-- C6, witness for `c6_upload_validation`: a dotted `pdf` filename with a
small non-empty body is accepted; an empty body is rejected with 400. -/
theorem c6_witness :
    uploadBookValidation ("book.pdf".toList) 5 = .ok () ∧
    uploadBookValidation ("book.pdf".toList) 0 = .httpError 400 :=
  ⟨by
    rcases (c6_upload_validation ("book.pdf".toList) 5).2 with h | h
    · exact absurd ((c6_upload_validation ("book.pdf".toList) 5).1.mp h) (by decide)
    · exact h,
   (c6_upload_validation ("book.pdf".toList) 0).1.mpr (by decide)⟩

/-! ## highlights table rows, delete_highlight (highlights.py lines 174-190)
and the two highlight listings (lines 73-126) -/

/-- A row of the `highlights` table, restricted to the columns the verified
routes use. -/
structure HighlightRow where
  id : Nat
  bookId : Nat
  textContent : List Char
  color : List Char
  note : Option (List Char)
  createdAt : Nat
deriving DecidableEq

/-- The SQL `DELETE FROM highlights WHERE id = :hid`: remaining table and
the matched-row count `database.execute` reports. -/
def executeDeleteHighlight (db : List HighlightRow) (hid : Nat) :
    List HighlightRow × Nat :=
  (db.filter fun h => h.id ≠ hid, (db.filter fun h => h.id = hid).length)

/-- The `try` body of `delete_highlight`: `uuid.UUID` raises `ValueError`
on a malformed id; a zero row count raises `HTTPException(404)`. -/
def deleteHighlightBody (parsedId : Option Nat) (db : List HighlightRow) :
    Except PyExc Unit × List HighlightRow :=
  match parsedId with
  | none => (.error .valueError, db)
  | some hid =>
    if (executeDeleteHighlight db hid).2 = 0 then
      (.error (.httpException 404), (executeDeleteHighlight db hid).1)
    else (.ok (), (executeDeleteHighlight db hid).1)

/-- The `except` chain of `delete_highlight`: `except ValueError` maps to
400 and the blanket `except Exception` maps to 500.  Like
`update_reading_position` — and unlike `update_highlight` in the same file —
this route has no `except HTTPException: raise` clause. -/
def deleteHighlightExceptChain : Except PyExc Unit → HttpResult Unit
  | .ok _ => .ok ()
  | .error .valueError => .httpError 400
  | .error _ => .httpError 500

/-- The whole `delete_highlight` route. -/
def deleteHighlightRoute (parsedId : Option Nat) (db : List HighlightRow) :
    HttpResult Unit × List HighlightRow :=
  (deleteHighlightExceptChain (deleteHighlightBody parsedId db).1,
   (deleteHighlightBody parsedId db).2)

/-- C7: a well-formed highlight id that matches no stored highlight makes
the route answer 500, not the 404 the claim requires — the
`HTTPException(404)` raised in the body is caught by the route's blanket
`except Exception` handler.  The table is left unchanged. -/
theorem c7_delete_unmatched (hid : Nat) (db : List HighlightRow)
    (hmiss : ∀ h ∈ db, h.id ≠ hid) :
    deleteHighlightRoute (some hid) db = (.httpError 500, db) ∧
    (.httpError 500 : HttpResult Unit) ≠ .httpError 404 := by
  have hcount : (db.filter fun h => h.id = hid).length = 0 := by
    rw [List.length_eq_zero, List.filter_eq_nil_iff]
    intro h hh
    simpa using hmiss h hh
  have hkeep : (db.filter fun h => h.id ≠ hid) = db := by
    rw [List.filter_eq_self]
    intro h hh
    simpa using hmiss h hh
  refine ⟨?_, by simp⟩
  simp only [deleteHighlightRoute, deleteHighlightBody, executeDeleteHighlight,
    hcount, if_pos rfl]
  rw [hkeep]
  rfl

/-- C7, witness for `c7_delete_unmatched` on a concrete one-row table. -/
theorem c7_witness :
    deleteHighlightRoute (some 9) [⟨1, 4, ['t'], ['#'], none, 0⟩]
      = (.httpError 500, [⟨1, 4, ['t'], ['#'], none, 0⟩]) :=
  (c7_delete_unmatched 9 [⟨1, 4, ['t'], ['#'], none, 0⟩] (by decide)).1

/-- The boolean order used by `get_book_highlights`:
`order_by(highlights.c.created_at.asc())`. -/
def hlCreatedLe (a b : HighlightRow) : Bool :=
  a.createdAt ≤ b.createdAt

/-- The boolean order used by `get_all_highlights`:
`order_by(highlights.c.created_at.desc())`. -/
def hlCreatedGe (a b : HighlightRow) : Bool :=
  b.createdAt ≤ a.createdAt

/-- `get_book_highlights`: select the rows of one book, ordered by
`created_at` ascending. -/
def getBookHighlights (db : List HighlightRow) (bid : Nat) : List HighlightRow :=
  (db.filter fun h => h.bookId = bid).mergeSort hlCreatedLe

/-- `get_all_highlights`: all rows, ordered by `created_at` descending. -/
def getAllHighlights (db : List HighlightRow) : List HighlightRow :=
  db.mergeSort hlCreatedGe

/-- C9: the per-book listing returns exactly the book's highlights in
non-decreasing `createdAt` order (oldest first), while the global listing
returns all highlights in non-increasing `createdAt` order (newest first). -/
theorem c9_highlight_orderings (db : List HighlightRow) (bid : Nat) :
    (getBookHighlights db bid).Pairwise (fun a b => a.createdAt ≤ b.createdAt) ∧
    (getBookHighlights db bid).Perm (db.filter fun h => h.bookId = bid) ∧
    (getAllHighlights db).Pairwise (fun a b => b.createdAt ≤ a.createdAt) ∧
    (getAllHighlights db).Perm db := by
  refine ⟨?_, List.mergeSort_perm _ _, ?_, List.mergeSort_perm _ _⟩
  · have htrans : ∀ a b c : HighlightRow,
        hlCreatedLe a b → hlCreatedLe b c → hlCreatedLe a c := by
      intro a b c hab hbc
      simp only [hlCreatedLe, decide_eq_true_eq] at hab hbc ⊢
      omega
    have htotal : ∀ a b : HighlightRow, hlCreatedLe a b || hlCreatedLe b a := by
      intro a b
      simp only [hlCreatedLe, Bool.or_eq_true, decide_eq_true_eq]
      omega
    have h := List.sorted_mergeSort htrans htotal (db.filter fun h => h.bookId = bid)
    exact h.imp fun hab => by simpa [hlCreatedLe] using hab
  · have htrans : ∀ a b c : HighlightRow,
        hlCreatedGe a b → hlCreatedGe b c → hlCreatedGe a c := by
      intro a b c hab hbc
      simp only [hlCreatedGe, decide_eq_true_eq] at hab hbc ⊢
      omega
    have htotal : ∀ a b : HighlightRow, hlCreatedGe a b || hlCreatedGe b a := by
      intro a b
      simp only [hlCreatedGe, Bool.or_eq_true, decide_eq_true_eq]
      omega
    have h := List.sorted_mergeSort htrans htotal db
    exact h.imp fun hab => by simpa [hlCreatedGe] using hab

/-! ## TTSService.text_to_speech (tts_service.py lines 105-178), the
tts_cache table (database.py lines 56-66) and the /generate route
(tts.py lines 25-68) -/

/-- A row of the `tts_cache` table (database.py lines 56-66). -/
structure CacheEntry where
  textHash : List Char
  voice : List Char
  preset : List Char
  audioFilePath : List Char
  createdAt : Nat
  lastAccessed : Nat
deriving DecidableEq

/-- The observable effects of one `text_to_speech` call: the state of the
`tts_cache` table and the ordered log of chunks handed to the synthesis
adapter (`self.tts.tts_with_preset`). -/
structure SynthWorld where
  cache : List CacheEntry
  synthCalls : List (List Char)
deriving DecidableEq

/-- The per-chunk loop of `text_to_speech`: skip blank chunks
(`if not chunk.strip(): continue`), otherwise invoke the synthesis adapter,
logging the invocation; an adapter exception aborts the loop. -/
def runSynthChunks (synth : List Char → Except Unit (List Int)) :
    List (List Char) → SynthWorld → Except Unit (List (List Int)) × SynthWorld
  | [], w => (.ok [], w)
  | c :: rest, w =>
    if pyStrip c = [] then runSynthChunks synth rest w
    else
      match synth c with
      | .error e => (.error e, { w with synthCalls := w.synthCalls ++ [c] })
      | .ok wave =>
        match runSynthChunks synth rest { w with synthCalls := w.synthCalls ++ [c] } with
        | (.error e, w2) => (.error e, w2)
        | (.ok ws, w2) => (.ok (wave :: ws), w2)

/-- The value component of `runSynthChunks`, on its own. -/
def runSynthResult (synth : List Char → Except Unit (List Int)) :
    List (List Char) → Except Unit (List (List Int))
  | [] => .ok []
  | c :: rest =>
    if pyStrip c = [] then runSynthResult synth rest
    else
      match synth c with
      | .error e => .error e
      | .ok wave =>
        match runSynthResult synth rest with
        | .error e => .error e
        | .ok ws => .ok (wave :: ws)

/-- The adapter invocations `runSynthChunks` performs: one per non-blank
chunk, stopping after the first failing invocation. -/
def synthTrace (synth : List Char → Except Unit (List Int)) :
    List (List Char) → List (List Char)
  | [] => []
  | c :: rest =>
    if pyStrip c = [] then synthTrace synth rest
    else
      c :: (match synth c with
            | .error _ => []
            | .ok _ => synthTrace synth rest)

/-- `TTSService.text_to_speech`.  `available` is `self.is_available()`;
`chunker` is `split_and_recombine_text` (an external tortoise helper);
`synth` is the adapter call, which may raise (`Except.error`, caught by the
function's blanket `try`/`except`, which returns `None`); `encode` is
`_audio_to_bytes` applied to the concatenation of the chunk waveforms.
Returns the `Optional[bytes]` result together with the resulting world;
note the function contains no access to the `tts_cache` table. -/
def textToSpeechRun (available : Bool) (chunker : List Char → List (List Char))
    (synth : List Char → Except Unit (List Int)) (encode : List Int → List Nat)
    (text : List Char) (w : SynthWorld) : Option (List Nat) × SynthWorld :=
  if !available then (none, w)
  else if pyStrip (cleanText text) = [] then (none, w)
  else
    match runSynthChunks synth (chunker (cleanText text)) w with
    | (.error _, w2) => (none, w2)
    | (.ok waves, w2) =>
      if waves = [] then (none, w2)
      else (some (encode waves.flatten), w2)

/-- The `/api/tts/generate` route (`generate_tts`): 503 when the service is
missing or unavailable, 400 on empty (after strip) text, 400 on text longer
than 1000 characters, then `text_to_speech`; a falsy result (None or empty
bytes) becomes 500, otherwise the audio bytes are returned. -/
def generateTts (available : Bool) (chunker : List Char → List (List Char))
    (synth : List Char → Except Unit (List Int)) (encode : List Int → List Nat)
    (text : List Char) (w : SynthWorld) : HttpResult (List Nat) × SynthWorld :=
  if !available then (.httpError 503, w)
  else if (pyStrip text).length = 0 then (.httpError 400, w)
  else if 1000 < text.length then (.httpError 400, w)
  else
    match textToSpeechRun available chunker synth encode text w with
    | (none, w2) => (.httpError 500, w2)
    | (some b, w2) => if b = [] then (.httpError 500, w2) else (.ok b, w2)

/-- `runSynthChunks` equals its value component paired with the world whose
cache is untouched and whose call log grows by exactly `synthTrace`. -/
theorem runSynthChunks_eq (synth : List Char → Except Unit (List Int))
    (chunks : List (List Char)) (w : SynthWorld) :
    runSynthChunks synth chunks w =
      (runSynthResult synth chunks,
        ⟨w.cache, w.synthCalls ++ synthTrace synth chunks⟩) := by
  induction chunks generalizing w with
  | nil => simp [runSynthChunks, runSynthResult, synthTrace]
  | cons c rest ih =>
    by_cases hblank : pyStrip c = []
    · simpa [runSynthChunks, runSynthResult, synthTrace, hblank] using ih w
    · cases hs : synth c with
      | error e =>
        simp [runSynthChunks, runSynthResult, synthTrace, hblank, hs]
      | ok wave =>
        simp only [runSynthChunks, runSynthResult, synthTrace, if_neg hblank, hs]
        rw [ih]
        cases runSynthResult synth rest <;> simp [List.append_assoc]

/-- With an adapter that always fails, the chunk loop either aborts with
the error or produced no audio at all. -/
theorem runSynthResult_allFail (chunks : List (List Char)) :
    runSynthResult (fun _ => .error ()) chunks = .error () ∨
    runSynthResult (fun _ => .error ()) chunks = .ok [] := by
  induction chunks with
  | nil => right; rfl
  | cons c rest ih =>
    by_cases hblank : pyStrip c = []
    · simpa [runSynthResult, hblank] using ih
    · left
      simp [runSynthResult, hblank]

/-- Characterization of one `text_to_speech` call on non-empty cleaned
text: the cache passes through untouched, the adapter-call log grows by
exactly `synthTrace`, and the returned value is determined by the chunk
results alone. -/
theorem textToSpeechRun_char (chunker : List Char → List (List Char))
    (synth : List Char → Except Unit (List Int)) (encode : List Int → List Nat)
    (text : List Char) (w : SynthWorld) (hne : pyStrip (cleanText text) ≠ []) :
    (textToSpeechRun true chunker synth encode text w).2 =
      ⟨w.cache, w.synthCalls ++ synthTrace synth (chunker (cleanText text))⟩ ∧
    (textToSpeechRun true chunker synth encode text w).1 =
      (match runSynthResult synth (chunker (cleanText text)) with
        | .error _ => none
        | .ok waves => if waves = [] then none else some (encode waves.flatten)) := by
  simp only [textToSpeechRun, Bool.not_true, if_neg hne]
  rw [runSynthChunks_eq]
  cases runSynthResult synth (chunker (cleanText text)) with
  | error e => simp
  | ok waves =>
    by_cases hw : waves = [] <;> simp [hw]

/-- C10: `text_to_speech` is total with an `Optional[bytes]` result: it
returns `None` when the engine is unavailable, when the cleaned text is
empty, and when the adapter raises (the blanket `except` turns any
generation error into `None`); in particular an unavailable engine and an
always-failing adapter produce the very same result value, so the two
failure causes cannot be told apart from the result. -/
theorem c10_text_to_speech_failure_modes (chunker : List Char → List (List Char))
    (synth : List Char → Except Unit (List Int)) (encode : List Int → List Nat)
    (text : List Char) (w : SynthWorld) :
    textToSpeechRun false chunker synth encode text w = (none, w) ∧
    (pyStrip (cleanText text) = [] →
      textToSpeechRun true chunker synth encode text w = (none, w)) ∧
    (runSynthResult synth (chunker (cleanText text)) = .error () →
      (textToSpeechRun true chunker synth encode text w).1 = none) ∧
    (textToSpeechRun false chunker synth encode text w).1 =
      (textToSpeechRun true chunker (fun _ => .error ()) encode text w).1 := by
  refine ⟨rfl, ?_, ?_, ?_⟩
  · intro h
    simp [textToSpeechRun, h]
  · intro h
    by_cases hne : pyStrip (cleanText text) = []
    · simp [textToSpeechRun, hne]
    · rw [(textToSpeechRun_char chunker synth encode text w hne).2, h]
  · by_cases hne : pyStrip (cleanText text) = []
    · simp [textToSpeechRun, hne]
    · rw [(textToSpeechRun_char chunker (fun _ => .error ()) encode text w hne).2]
      rcases runSynthResult_allFail (chunker (cleanText text)) with h | h <;>
        simp [textToSpeechRun, h]

/-- Concrete instantiations shared by the TTS witnesses: a chunker that
emits the whole text as one chunk, an adapter that always succeeds with a
one-sample waveform, an adapter that always raises, and a constant
encoder. -/
def constChunker (t : List Char) : List (List Char) := [t]

def okSynth (_ : List Char) : Except Unit (List Int) := .ok [0]

def failSynth (_ : List Char) : Except Unit (List Int) := .error ()

def constEncode (_ : List Int) : List Nat := [1]

/-- C10, witness for `c10_text_to_speech_failure_modes` at concrete
inputs: whitespace-only text, an unavailable engine, and an adapter
failure. -/
theorem c10_witness :
    textToSpeechRun true constChunker okSynth constEncode [' '] ⟨[], []⟩ = (none, ⟨[], []⟩) ∧
    textToSpeechRun false constChunker okSynth constEncode ['h'] ⟨[], []⟩ = (none, ⟨[], []⟩) ∧
    (textToSpeechRun true constChunker failSynth constEncode ['h', 'i'] ⟨[], []⟩).1 = none :=
  ⟨(c10_text_to_speech_failure_modes constChunker okSynth constEncode
      [' '] ⟨[], []⟩).2.1 (by decide),
   (c10_text_to_speech_failure_modes constChunker okSynth constEncode
      ['h'] ⟨[], []⟩).1,
   (c10_text_to_speech_failure_modes constChunker failSynth constEncode
      ['h', 'i'] ⟨[], []⟩).2.2.1 rfl⟩

/-- C5: the `/generate` route answers 503 whenever the adapter is
unconfigured or unavailable; with an available adapter it answers 400 on
empty (after strip) or over-1000-character text, and 500 when synthesis
fails (a `None` from `text_to_speech`) on otherwise valid text. -/
theorem c5_generate_tts_statuses (available : Bool)
    (chunker : List Char → List (List Char))
    (synth : List Char → Except Unit (List Int)) (encode : List Int → List Nat)
    (text : List Char) (w : SynthWorld) :
    (available = false →
      (generateTts available chunker synth encode text w).1 = .httpError 503) ∧
    (available = true → ((pyStrip text).length = 0 ∨ 1000 < text.length) →
      (generateTts available chunker synth encode text w).1 = .httpError 400) ∧
    (available = true → (pyStrip text).length ≠ 0 → ¬ 1000 < text.length →
      (textToSpeechRun true chunker synth encode text w).1 = none →
      (generateTts available chunker synth encode text w).1 = .httpError 500) := by
  refine ⟨?_, ?_, ?_⟩
  · intro h
    subst h
    rfl
  · intro h hbad
    subst h
    rcases hbad with hempty | hlong
    · simp [generateTts, hempty]
    · by_cases hempty : (pyStrip text).length = 0
      · simp [generateTts, hempty]
      · simp [generateTts, hempty, hlong]
  · intro h hne hlen htts
    subst h
    cases hrun : textToSpeechRun true chunker synth encode text w with
    | mk r w2 =>
      rw [hrun] at htts
      simp only at htts
      subst htts
      simp [generateTts, hne, hlen, hrun]

/-- C5, witness for `c5_generate_tts_statuses` at concrete inputs covering
the 503, 400 and 500 branches. -/
theorem c5_witness :
    (generateTts false constChunker okSynth constEncode ['h'] ⟨[], []⟩).1 = .httpError 503 ∧
    (generateTts true constChunker okSynth constEncode [] ⟨[], []⟩).1 = .httpError 400 ∧
    (generateTts true constChunker failSynth constEncode ['h', 'i'] ⟨[], []⟩).1
      = .httpError 500 :=
  ⟨(c5_generate_tts_statuses false constChunker okSynth constEncode ['h'] ⟨[], []⟩).1 rfl,
   (c5_generate_tts_statuses true constChunker okSynth constEncode [] ⟨[], []⟩).2.1 rfl
     (Or.inl (by decide)),
   (c5_generate_tts_statuses true constChunker failSynth constEncode
       ['h', 'i'] ⟨[], []⟩).2.2 rfl (by decide) (by decide) (by decide)⟩

/-- C1: `text_to_speech` performs no caching at all.  Across two calls with
the identical (text, voice, preset) triple, the `tts_cache` table is never
read or written (in particular `lastAccessed` is never refreshed), and the
second call hands every non-blank chunk to the synthesis adapter again
instead of skipping synthesis: the adapter-call log doubles. -/
theorem c1_second_call_resynthesizes (chunker : List Char → List (List Char))
    (synth : List Char → Except Unit (List Int)) (encode : List Int → List Nat)
    (text : List Char) (w : SynthWorld) (hne : pyStrip (cleanText text) ≠ []) :
    ((textToSpeechRun true chunker synth encode text
        (textToSpeechRun true chunker synth encode text w).2).2).cache = w.cache ∧
    (textToSpeechRun true chunker synth encode text
        (textToSpeechRun true chunker synth encode text w).2).1 =
      (textToSpeechRun true chunker synth encode text w).1 ∧
    ((textToSpeechRun true chunker synth encode text
        (textToSpeechRun true chunker synth encode text w).2).2).synthCalls =
      w.synthCalls ++ synthTrace synth (chunker (cleanText text))
        ++ synthTrace synth (chunker (cleanText text)) ∧
    (synthTrace synth (chunker (cleanText text)) ≠ [] →
      ((textToSpeechRun true chunker synth encode text
          (textToSpeechRun true chunker synth encode text w).2).2).synthCalls ≠
        ((textToSpeechRun true chunker synth encode text w).2).synthCalls) := by
  have h1 := textToSpeechRun_char chunker synth encode text w hne
  have h2 := textToSpeechRun_char chunker synth encode text
    ((textToSpeechRun true chunker synth encode text w).2) hne
  refine ⟨?_, ?_, ?_, ?_⟩
  · rw [h2.1, h1.1]
  · rw [h2.2, h1.2]
  · rw [h2.1, h1.1]
  · intro htr
    rw [h2.1, h1.1]
    intro heq
    simp only [SynthWorld.mk.injEq] at heq
    have hlen := congrArg List.length heq
    simp only [List.length_append] at hlen
    have : (synthTrace synth (chunker (cleanText text))).length = 0 := by omega
    exact htr (List.length_eq_zero.mp this)

/-- C1, witness for `c1_second_call_resynthesizes` at a concrete input: on
text `hi` with a one-chunk chunker and a succeeding adapter, the second
identical call leaves the cache empty and logs the chunk a second time. -/
theorem c1_witness :
    ((textToSpeechRun true constChunker okSynth constEncode ['h', 'i']
        (textToSpeechRun true constChunker okSynth constEncode ['h', 'i']
          ⟨[], []⟩).2).2).cache = ([] : List CacheEntry) ∧
    ((textToSpeechRun true constChunker okSynth constEncode ['h', 'i']
        (textToSpeechRun true constChunker okSynth constEncode ['h', 'i']
          ⟨[], []⟩).2).2).synthCalls ≠
      ((textToSpeechRun true constChunker okSynth constEncode ['h', 'i']
          ⟨[], []⟩).2).synthCalls :=
  ⟨(c1_second_call_resynthesizes constChunker okSynth constEncode
      ['h', 'i'] ⟨[], []⟩ (by decide)).1,
   (c1_second_call_resynthesizes constChunker okSynth constEncode
      ['h', 'i'] ⟨[], []⟩ (by decide)).2.2.2 (by decide)⟩

end BookAI
